import Mathlib

/-!
Verification of the refurbished-Mac price monitor (`apple_refurb_fixed.py`).

The Python source is shallowly embedded below.  Pure text processing
(regular-expression searches over page text and titles) is modelled over
`List Char`; each regular expression of the source gets a hand-rolled
matcher with the same leftmost-match semantics (the patterns involved never
need backtracking inside a position, as each greedy token is followed by a
token that cannot consume the same characters).  `\d` and `\s` are modelled
by their ASCII meaning, which covers every text the claims mention.
External collaborators (HTTP transport, BeautifulSoup, pandas) are modelled
as explicit inputs: the transport is an oracle from attempt number to an
optional body, the parsed listing page is the list of anchor nodes
(href and visible text), and the pandas DataFrame is a record of a column
header, an index column and a row list.
-/

/-- ASCII decimal digit, the relevant case of Python `\d`. -/
def isPyDigit (c : Char) : Bool := '0' ≤ c && c ≤ '9'

/-- ASCII whitespace, the relevant case of Python `\s`. -/
def isPySpace (c : Char) : Bool :=
  c = ' ' || c = '\t' || c = '\n' || c = '\r' || c = '\x0b' || c = '\x0c'

/-- Greedy `\s*`: drop the maximal run of whitespace. -/
def skipWS (s : List Char) : List Char := s.dropWhile isPySpace

/-- `needle` is a leading pattern of `s` (literal token match). -/
def startsWith : List Char → List Char → Bool
  | [], _ => true
  | _ :: _, [] => false
  | p :: ps, c :: cs => p == c && startsWith ps cs

/-- Python `needle in hay` (substring containment). -/
def containsSub (needle : List Char) : List Char → Bool
  | [] => startsWith needle []
  | c :: rest => startsWith needle (c :: rest) || containsSub needle rest

/-- Leftmost-match search: try the position matcher `m` at every suffix,
left to right, mirroring `re.search`. -/
def searchWith (m : List Char → Option α) : List Char → Option α
  | [] => m []
  | c :: rest =>
    match m (c :: rest) with
    | some r => some r
    | none => searchWith m rest

/-- Position matcher for `RMB\s*([\d,]+)` (line 84, and the tail of the
pattern on line 81); returns the captured group. -/
def matchRMBTailAt (s : List Char) : Option (List Char) :=
  if startsWith (['R', 'M', 'B']) s then
    let rest := skipWS (s.drop 3)
    let grp := rest.takeWhile (fun c => isPyDigit c || c == ',')
    if grp.isEmpty then none else some grp
  else none

/-- Position matcher for `或\s*RMB\s*([\d,]+)` (line 81). -/
def matchYouRMBAt (s : List Char) : Option (List Char) :=
  match s with
  | [] => none
  | c :: t => if c = '或' then matchRMBTailAt (skipWS t) else none

/-- Digits of the captured group with the `,` thousands separators removed
(line 87: `price_match.group(1).replace(',', '')`). -/
def stripCommas (g : List Char) : List Char := g.filter (fun c => c ≠ ',')

/-- Decimal value of a digit string. -/
def digitsToNat (ds : List Char) : Nat :=
  ds.foldl (fun n c => n * 10 + (c.toNat - ('0').toNat)) 0

/-- `int(...)` applied to the comma-stripped group (lines 87-92): the group
consists of digits and commas, so the parse fails exactly when nothing is
left after stripping the commas (Python `int('')` raises `ValueError`). -/
def parseIntCommas (g : List Char) : Option Nat :=
  let ds := stripCommas g
  if ds.isEmpty then none else some (digitsToNat ds)

/-- Price extraction of `fetch_product_details` (lines 81-95): search for
`或\s*RMB\s*([\d,]+)`, fall back to `RMB\s*([\d,]+)` only when the first
pattern is absent, then parse the comma-stripped group; `none` signals the
`return None` rejection paths. -/
def extract_price (text : List Char) : Option Nat :=
  match searchWith matchYouRMBAt text with
  | some g => parseIntCommas g
  | none =>
    match searchWith matchRMBTailAt text with
    | some g => parseIntCommas g
    | none => none

/-- Position matcher for `(\d+)\s*GB\s*统一内存` (line 98). -/
def matchMemoryAt (s : List Char) : Option (List Char) :=
  let d := s.takeWhile isPyDigit
  if d.isEmpty then none
  else
    let r1 := skipWS (s.dropWhile isPyDigit)
    if startsWith (['G', 'B']) r1 then
      let r2 := skipWS (r1.drop 2)
      if startsWith (['统', '一', '内', '存']) r2 then some d else none
    else none

/-- Memory field (lines 98-102): `"<digits>GB"`, or `""` when absent. -/
def extract_memory (text : List Char) : String :=
  match searchWith matchMemoryAt text with
  | some d => String.mk d ++ ("GB")
  | none => ""

/-- Position matcher for `(\d+)\s*(GB|TB)\s*固态硬盘` (line 105); returns
both captured groups. -/
def matchStorageAt (s : List Char) : Option (List Char × List Char) :=
  let d := s.takeWhile isPyDigit
  if d.isEmpty then none
  else
    let r1 := skipWS (s.dropWhile isPyDigit)
    let unit? : Option (List Char) :=
      if startsWith (['G', 'B']) r1 then some (['G', 'B'])
      else if startsWith (['T', 'B']) r1 then some (['T', 'B'])
      else none
    match unit? with
    | none => none
    | some u =>
      let r2 := skipWS (r1.drop 2)
      if startsWith (['固', '态', '硬', '盘']) r2 then some (d, u) else none

/-- Storage field (lines 105-109): `"<digits><unit>"`, or `""` when absent. -/
def extract_storage (text : List Char) : String :=
  match searchWith matchStorageAt text with
  | some du => String.mk (du.1 ++ du.2)
  | none => ""

/-- Position matcher for `最初发布于\s*(\d{4})\s*年` (line 112). -/
def matchYearAt (s : List Char) : Option (List Char) :=
  if startsWith (['最', '初', '发', '布', '于']) s then
    let r := skipWS (s.drop 5)
    let d := r.take 4
    if d.length == 4 && d.all isPyDigit then
      let r2 := skipWS (r.drop 4)
      if startsWith (['年']) r2 then some d else none
    else none
  else none

/-- Release-year field (lines 112-116): the 4-digit year, or `""`. -/
def extract_release_year (text : List Char) : String :=
  match searchWith matchYearAt text with
  | some d => String.mk d
  | none => ""

/-- A product record: the Python dict flowing through the pipeline.
`none` models a key that is absent from the dict; `some ""` a key that is
present with the empty string. -/
structure Product where
  title : String
  url : String
  price : Option Nat := none
  memory : Option String := none
  storage : Option String := none
  release_year : Option String := none
  model : Option String := none
  screen_size : Option String := none
  chip : Option String := none
  cpu_cores : Option String := none
  gpu_cores : Option String := none
  color : Option String := none
  deriving DecidableEq, Repr

/-- Extraction part of `fetch_product_details` (lines 81-119): on a price
regex miss or an `int` parse failure the source returns `None` (lines
90-95); otherwise it fills `price`, `memory`, `storage` and `release_year`
(the latter three with `""` when their pattern is absent) and returns the
record. -/
def details_from_text (product : Product) (text : List Char) : Option Product :=
  match extract_price text with
  | none => none
  | some pr =>
    some { product with
            price := some pr
            memory := some (extract_memory text)
            storage := some (extract_storage text)
            release_year := some (extract_release_year text) }

/-- `fetch_product_details` (lines 66-123).  The composition of
`fetch_page(url, retry=2)` and `BeautifulSoup(...).get_text()` is the
external oracle `page : url → Option text`; `none` models a fetch that
failed after its retries.  The source treats a falsy body (`None` or the
empty string, line 74) as a failure; an empty url is rejected up front
(line 69); the field extraction of lines 81-119 is `details_from_text`. -/
def fetch_product_details (page : String → Option String) (product : Product) :
    Option Product :=
  if product.url = "" then none
  else
    match page product.url with
    | none => none
    | some html =>
      if html = "" then none
      else details_from_text product html.toList

/-- `process_products_parallel` (lines 183-205): fan-out over
`fetch_product_details`, keeping only the successfully fetched records
(line 199).  The thread pool completes tasks in a nondeterministic order;
the claims settled here are order-insensitive (membership and counts), so
the fan-in is modelled in submission order. -/
def process_products_parallel (page : String → Option String)
    (products : List Product) : List Product :=
  products.filterMap (fetch_product_details page)

/-- An anchor node of the listing page, as delivered by the HTML-parsing
collaborator: its `href` attribute and its visible text. -/
structure Link where
  href : String
  text : String
  deriving DecidableEq, Repr

/-- ASCII word character, the relevant case of Python `\w`. -/
def isWordChar (c : Char) : Bool :=
  isPyDigit c || ('a' ≤ c && c ≤ 'z') || ('A' ≤ c && c ≤ 'Z') || c == '_'

/-- Position matcher for the href filter `/shop/product/\w+/a` (line 43). -/
def matchProductHrefAt (s : List Char) : Option Unit :=
  if startsWith (("/shop/product/").toList) s then
    let r := s.drop 14
    let w := r.takeWhile isWordChar
    if w.isEmpty then none
    else if startsWith (['/', 'a']) (r.dropWhile isWordChar) then some ()
    else none
  else none

/-- `find_all('a', href=re.compile(r'/shop/product/\w+/a'))` keeps an anchor
iff the pattern is found somewhere in its href. -/
def href_matches (href : String) : Bool :=
  (searchWith matchProductHrefAt href.toList).isSome

/-- Python `str.strip()` (via `get_text(strip=True)`, line 47). -/
def pyStrip (s : List Char) : List Char :=
  ((s.dropWhile isPySpace).reverse.dropWhile isPySpace).reverse

/-- URL normalisation (lines 50-53): prepend the site origin when the href
does not start with `http`, then drop everything from the first `?` on. -/
def normalize_url (href : String) : String :=
  let u := if startsWith (("http").toList) href.toList then href
           else ("https://www.apple.com.cn") ++ href
  String.mk (u.toList.takeWhile (fun c => c ≠ '?'))

/-- One iteration of the loop body of `parse_product_list` (lines 46-53):
an href-matching link whose stripped text starts with `翻新` yields a
candidate record with the normalised URL. -/
def link_candidate (l : Link) : Option Product :=
  if href_matches l.href then
    let title := String.mk (pyStrip l.text.toList)
    if startsWith (("翻新").toList) title.toList then
      some { title := title, url := normalize_url l.href }
    else none
  else none

/-- The candidate stream before deduplication: every href-matching,
`翻新`-titled link in document order. -/
def raw_candidates (links : List Link) : List Product :=
  links.filterMap link_candidate

/-- The dedup loop of `parse_product_list` (lines 45-61) with its `seen_urls`
set made explicit. -/
def parse_loop : List Link → List String → List Product
  | [], _ => []
  | l :: rest, seen =>
    match link_candidate l with
    | none => parse_loop rest seen
    | some p =>
      if p.url ∈ seen then parse_loop rest seen
      else p :: parse_loop rest (p.url :: seen)

/-- `parse_product_list` (lines 37-63). -/
def parse_product_list (links : List Link) : List Product :=
  parse_loop links []

/-- Fixed colour palette of `extract_basic_details` (line 174). -/
def colorsList : List String :=
  ["深空灰色", "深空黑色", "银色", "星光色", "午夜色", "天蓝色", "金色", "玫瑰金色"]

/-- The colour loop with `break` (lines 175-178): first palette entry that
occurs in the title. -/
def findColor : List String → List Char → String
  | [], _ => ""
  | c :: cs, t => if containsSub c.toList t then c else findColor cs t

/-- Position matcher for `(\d+(?:\.\d+)?)\s*英寸` (line 154). -/
def matchScreenAt (s : List Char) : Option (List Char) :=
  let d := s.takeWhile isPyDigit
  if d.isEmpty then none
  else
    let r := s.dropWhile isPyDigit
    let gr : List Char × List Char :=
      match r with
      | '.' :: t =>
        let f := t.takeWhile isPyDigit
        if f.isEmpty then (d, r) else (d ++ '.' :: f, t.dropWhile isPyDigit)
      | _ => (d, r)
    if startsWith (['英', '寸']) (skipWS gr.2) then some gr.1 else none

/-- Position matcher for `Apple (M\d+(?:\s+(?:Pro|Max|Ultra))?)` (line 159);
the captured group keeps the whitespace the `\s+` consumed. -/
def matchChipAt (s : List Char) : Option (List Char) :=
  if startsWith (['A', 'p', 'p', 'l', 'e', ' ']) s then
    match s.drop 6 with
    | 'M' :: t =>
      let d := t.takeWhile isPyDigit
      if d.isEmpty then none
      else
        let r := t.dropWhile isPyDigit
        let ws := r.takeWhile isPySpace
        let r2 := r.dropWhile isPySpace
        let base : List Char := 'M' :: d
        if ws.isEmpty then some base
        else if startsWith (['P', 'r', 'o']) r2 then some (base ++ ws ++ ['P', 'r', 'o'])
        else if startsWith (['M', 'a', 'x']) r2 then some (base ++ ws ++ ['M', 'a', 'x'])
        else if startsWith (['U', 'l', 't', 'r', 'a']) r2 then
          some (base ++ ws ++ ['U', 'l', 't', 'r', 'a'])
        else some base
    | _ => none
  else none

/-- Position matcher for `(\d+)\s*核中央处理器` (line 164). -/
def matchCpuAt (s : List Char) : Option (List Char) :=
  let d := s.takeWhile isPyDigit
  if d.isEmpty then none
  else if startsWith (['核', '中', '央', '处', '理', '器'])
      (skipWS (s.dropWhile isPyDigit)) then some d
  else none

/-- Position matcher for `(\d+)\s*核图形处理器` (line 169). -/
def matchGpuAt (s : List Char) : Option (List Char) :=
  let d := s.takeWhile isPyDigit
  if d.isEmpty then none
  else if startsWith (['核', '图', '形', '处', '理', '器'])
      (skipWS (s.dropWhile isPyDigit)) then some d
  else none

/-- Result record of `extract_basic_details`. -/
structure BasicDetails where
  model : String
  screen_size : String
  chip : String
  cpu_cores : String
  gpu_cores : String
  color : String
  deriving DecidableEq, Repr

/-- Model if-chain of `extract_basic_details` (lines 138-151). -/
def extract_model (t : List Char) : String :=
  if containsSub (("MacBook Air").toList) t then "MacBook Air"
  else if containsSub (("MacBook Pro").toList) t then "MacBook Pro"
  else if containsSub (("Mac mini").toList) t then "Mac mini"
  else if containsSub (("Mac Studio").toList) t then "Mac Studio"
  else if containsSub (("Mac Pro").toList) t then "Mac Pro"
  else if containsSub (("iMac").toList) t then "iMac"
  else if containsSub (("显示屏").toList) t || containsSub (("Display").toList) t then
    "显示屏"
  else ""

/-- Screen-size rule of `extract_basic_details` (lines 154-156). -/
def extract_screen_size (t : List Char) : String :=
  match searchWith matchScreenAt t with
  | some g => String.mk g ++ ("英寸")
  | none => ""

/-- Chip rule of `extract_basic_details` (lines 159-161). -/
def extract_chip (t : List Char) : String :=
  match searchWith matchChipAt t with
  | some g => String.mk g
  | none => ""

/-- CPU-core rule of `extract_basic_details` (lines 164-166). -/
def extract_cpu_cores (t : List Char) : String :=
  match searchWith matchCpuAt t with
  | some d => String.mk d ++ ("核")
  | none => ""

/-- GPU-core rule of `extract_basic_details` (lines 169-171). -/
def extract_gpu_cores (t : List Char) : String :=
  match searchWith matchGpuAt t with
  | some d => String.mk d ++ ("核")
  | none => ""

/-- `extract_basic_details` (lines 126-180): the title-derived fields. -/
def extract_basic_details (title : String) : BasicDetails :=
  ⟨extract_model title.toList, extract_screen_size title.toList,
   extract_chip title.toList, extract_cpu_cores title.toList,
   extract_gpu_cores title.toList, findColor colorsList title.toList⟩

/-- Fill rule of `create_dataframe` (lines 217-219): a title-derived value
is written only when the key is absent or its current value is falsy. -/
def fillField (cur : Option String) (v : String) : Option String :=
  match cur with
  | none => some v
  | some s => if s = "" then some v else some s

/-- The per-record fill loop of `create_dataframe` (lines 214-219). -/
def fill_basic (p : Product) : Product :=
  let b := extract_basic_details p.title
  { p with
    model := fillField p.model b.model
    screen_size := fillField p.screen_size b.screen_size
    chip := fillField p.chip b.chip
    cpu_cores := fillField p.cpu_cores b.cpu_cores
    gpu_cores := fillField p.gpu_cores b.gpu_cores
    color := fillField p.color b.color }

/-- Sort key of `df.sort_values('price')`: the record's price. -/
def priceKey (p : Product) : Nat := p.price.getD 0

/-- The by-price order used for the final sort. -/
def priceLE (a b : Product) : Prop := priceKey a ≤ priceKey b

instance : DecidableRel priceLE := fun a b => Nat.decLe (priceKey a) (priceKey b)

/-- `df.sort_values('price')` (line 239): a sort of the rows by the price
key.  pandas' default `kind='quicksort'` gives no guarantee on the relative
order of equal-price rows, so the insertion sort used here fixes one
possible tie order that the program need not reproduce; the properties
derived from `create_dataframe` below (its empty-input shape and its column
header) do not depend on the tie order. -/
def sortByPrice (ps : List Product) : List Product :=
  List.insertionSort priceLE ps

/-- The canonical column order of `create_dataframe` (lines 225-234). -/
def required_columns : List String :=
  ["model", "screen_size", "chip", "cpu_cores", "gpu_cores",
   "color", "memory", "storage", "release_year", "price", "title", "url"]

/-- The pandas DataFrame as far as the pipeline observes it: column header,
index column and row list. -/
structure DataFrame where
  columns : List String
  index : List Nat
  rows : List Product
  deriving DecidableEq, Repr

/-- `create_dataframe` (lines 208-242): an empty input short-circuits to the
bare `pd.DataFrame()` (no columns at all, line 211); otherwise fill the
title-derived fields, impose the canonical columns, sort by price and
reindex from 0 (`reset_index(drop=True)`). -/
def create_dataframe : List Product → DataFrame
  | [] => ⟨[], [], []⟩
  | p :: ps =>
    let sorted := sortByPrice ((p :: ps).map fill_basic)
    ⟨required_columns, List.range sorted.length, sorted⟩

/-- Observable outcome of one `fetch_page` call: the returned body (if any),
the number of `time.sleep(1)` pauses performed, and whether the terminal
failure was logged. -/
structure FetchTrace where
  result : Option String
  sleeps : Nat
  logged : Bool
  deriving DecidableEq, Repr

/-- The retry loop of `fetch_page` (lines 24-34), with the per-attempt
transport outcome abstracted into an oracle (`some body` = 2xx response,
`none` = timeout, connection error or non-2xx status). -/
def fetch_page_go (outcome : Nat → Option String) (retry : Nat) :
    Nat → Nat → Nat → FetchTrace
  | 0, _, sleeps => ⟨none, sleeps, false⟩
  | remaining + 1, attempt, sleeps =>
    match outcome attempt with
    | some body => ⟨some body, sleeps, false⟩
    | none =>
      if attempt = retry - 1 then ⟨none, sleeps, true⟩
      else fetch_page_go outcome retry remaining (attempt + 1) (sleeps + 1)

/-- `fetch_page(url, retry)` (lines 16-34). -/
def fetch_page (url : String) (outcome : String → Nat → Option String)
    (retry : Nat) : FetchTrace :=
  fetch_page_go (outcome url) retry retry 0 0

/-! ### Substring lemmas used for the price-rejection claims -/

lemma contains_of_startsWith {needle hay : List Char}
    (h : startsWith needle hay = true) : containsSub needle hay = true := by
  cases hay with
  | nil => simpa [containsSub] using h
  | cons c rest => simp [containsSub, h]

lemma contains_cons {needle : List Char} (c : Char) {rest : List Char}
    (h : containsSub needle rest = true) : containsSub needle (c :: rest) = true := by
  simp [containsSub, h]

lemma contains_of_dropWhile {needle : List Char} (p : Char → Bool) :
    ∀ {hay : List Char}, containsSub needle (hay.dropWhile p) = true →
      containsSub needle hay = true := by
  intro hay
  induction hay with
  | nil => simp [List.dropWhile]
  | cons c rest ih =>
    intro h
    cases hc : p c with
    | true =>
      rw [List.dropWhile_cons, if_pos hc] at h
      exact contains_cons c (ih h)
    | false =>
      rwa [List.dropWhile_cons, if_neg (by simp [hc])] at h

lemma searchWith_contains {α : Type} (m : List Char → Option α) (needle : List Char)
    (hm : ∀ s g, m s = some g → containsSub needle s = true) :
    ∀ {hay : List Char} {g : α}, searchWith m hay = some g →
      containsSub needle hay = true := by
  intro hay
  induction hay with
  | nil =>
    intro g h
    exact hm [] g h
  | cons c rest ih =>
    intro g h
    cases hmc : m (c :: rest) with
    | some r => exact hm _ _ hmc
    | none =>
      simp only [searchWith, hmc] at h
      exact contains_cons c (ih h)

lemma matchRMBTail_contains {s : List Char} {g : List Char}
    (h : matchRMBTailAt s = some g) : containsSub (['R', 'M', 'B']) s = true := by
  by_cases hs : startsWith (['R', 'M', 'B']) s
  · exact contains_of_startsWith hs
  · simp [matchRMBTailAt, hs] at h

lemma matchYouRMB_contains {s : List Char} {g : List Char}
    (h : matchYouRMBAt s = some g) : containsSub (['R', 'M', 'B']) s = true := by
  cases s with
  | nil => simp [matchYouRMBAt] at h
  | cons c t =>
    by_cases hc : c = '或'
    · rw [matchYouRMBAt, if_pos hc] at h
      exact contains_cons c (contains_of_dropWhile isPySpace (matchRMBTail_contains h))
    · simp [matchYouRMBAt, hc] at h

lemma no_rmb_extract_price_none {t : List Char}
    (h : containsSub (['R', 'M', 'B']) t = false) : extract_price t = none := by
  cases h1 : searchWith matchYouRMBAt t with
  | some g =>
    have := searchWith_contains matchYouRMBAt (['R', 'M', 'B'])
      (fun _ _ hg => matchYouRMB_contains hg) h1
    rw [h] at this
    exact absurd this (by simp)
  | none =>
    cases h2 : searchWith matchRMBTailAt t with
    | some g =>
      have := searchWith_contains matchRMBTailAt (['R', 'M', 'B'])
        (fun _ _ hg => matchRMBTail_contains hg) h2
      rw [h] at this
      exact absurd this (by simp)
    | none => simp [extract_price, h1, h2]

/-- C1: price extraction searches for `或 RMB <digits-with-commas>` first and
falls back to bare `RMB <digits-with-commas>` only when the first pattern is
absent; the matched group is comma-stripped and parsed as an integer, so a
text containing `或 RMB 9,999 ` yields price 9999; when neither pattern
matches, or the parse of the matched group fails (a comma-only group), the
extraction yields `none`, the pipeline-rejection signal. -/
theorem price_extraction_spec :
    (∀ t g, searchWith matchYouRMBAt t = some g → extract_price t = parseIntCommas g) ∧
    (∀ t, searchWith matchYouRMBAt t = none →
      extract_price t = (searchWith matchRMBTailAt t).bind parseIntCommas) ∧
    extract_price (("或 RMB 9,999 ").toList) = some 9999 ∧
    extract_price (("RMB 5 或 RMB 9,999 ").toList) = some 9999 ∧
    extract_price (("RMB 1,234").toList) = some 1234 ∧
    extract_price (("或 RMB ,").toList) = none ∧
    extract_price (("hello").toList) = none := by
  refine ⟨fun t g h => by simp [extract_price, h], fun t h => ?_,
    by decide, by decide, by decide, by decide, by decide⟩
  rw [extract_price, h]
  cases h2 : searchWith matchRMBTailAt t <;> simp [h2]

/-- Witness for C1 at a concrete input. -/
theorem price_extraction_spec_witness :
    extract_price (("或 RMB 7").toList) = parseIntCommas (['7']) :=
  price_extraction_spec.1 (("或 RMB 7").toList) (['7']) (by decide)

/-- C8: memory is the group of `<digits> GB 统一内存` rendered `<digits>GB`,
storage the groups of `<digits> (GB|TB) 固态硬盘` rendered `<digits><unit>`,
release year the 4-digit group of `最初发布于 <year> 年`; each defaults to
the empty string when its pattern is absent; in particular a text with
`16 GB 统一内存` and `512 GB 固态硬盘` yields memory `16GB`, storage
`512GB`. -/
theorem secondary_fields_spec :
    (∀ t d, searchWith matchMemoryAt t = some d →
      extract_memory t = String.mk d ++ ("GB")) ∧
    (∀ t, searchWith matchMemoryAt t = none → extract_memory t = "") ∧
    (∀ t d u, searchWith matchStorageAt t = some (d, u) →
      extract_storage t = String.mk (d ++ u)) ∧
    (∀ t, searchWith matchStorageAt t = none → extract_storage t = "") ∧
    (∀ t d, searchWith matchYearAt t = some d → extract_release_year t = String.mk d) ∧
    (∀ t, searchWith matchYearAt t = none → extract_release_year t = "") ∧
    extract_memory (("16 GB 统一内存，512 GB 固态硬盘").toList) = "16GB" ∧
    extract_storage (("16 GB 统一内存，512 GB 固态硬盘").toList) = "512GB" ∧
    extract_release_year (("最初发布于 2022 年").toList) = "2022" ∧
    extract_memory (("无内存信息").toList) = "" ∧
    extract_storage (("无存储信息").toList) = "" ∧
    extract_release_year (("最初发布于 12345 年").toList) = "" := by
  refine ⟨fun t d h => by simp [extract_memory, h],
    fun t h => by simp [extract_memory, h],
    fun t d u h => by simp [extract_storage, h],
    fun t h => by simp [extract_storage, h],
    fun t d h => by simp [extract_release_year, h],
    fun t h => by simp [extract_release_year, h],
    by decide, by decide, by decide, by decide, by decide, by decide⟩

/-- Witness for C8 at a concrete input. -/
theorem secondary_fields_spec_witness :
    extract_memory (("16 GB 统一内存").toList) = String.mk (['1', '6']) ++ ("GB") :=
  secondary_fields_spec.1 (("16 GB 统一内存").toList) (['1', '6']) (by decide)

/-! ### Title-rule lemmas -/

lemma findColor_eq_find? (t : List Char) :
    ∀ cs : List String,
      findColor cs t = ((cs.find? (fun c => containsSub c.toList t)).getD "") := by
  intro cs
  induction cs with
  | nil => rfl
  | cons c cs ih =>
    cases h : containsSub c.toList t with
    | true =>
      simp only [findColor, List.find?]
      rw [h]
      rfl
    | false =>
      simp only [findColor, List.find?]
      rw [h, ih]
      rfl

/-- Ordered keyword list of the model if-chain (lines 138-151); the two
display keywords両 map to the same value and come last. -/
def modelKeywordList : List String :=
  ["MacBook Air", "MacBook Pro", "Mac mini", "Mac Studio", "Mac Pro", "iMac",
   "显示屏", "Display"]

/-- Sample title of the spec scenario. -/
def titleSample9 : String :=
  "翻新 MacBook Air 13 英寸机型搭载 Apple M2 芯片 8 核中央处理器 10 核图形处理器 深空灰色"

/-- C9: title-field extraction is first-match-wins within each rule family
and every field defaults to the empty string when its pattern does not
match; the spec's sample title yields model `MacBook Air`, screen size
`13英寸`, chip `M2`, cpu `8核`, gpu `10核`, colour `深空灰色`. -/
theorem title_fields_spec :
    extract_basic_details titleSample9 =
      ⟨"MacBook Air", "13英寸", "M2", "8核", "10核", "深空灰色"⟩ ∧
    (∀ title : String, containsSub (("MacBook Air").toList) title.toList = true →
      (extract_basic_details title).model = "MacBook Air") ∧
    (∀ title : String,
      (∀ kw ∈ modelKeywordList, containsSub kw.toList title.toList = false) →
      (extract_basic_details title).model = "") ∧
    (∀ title : String, (extract_basic_details title).color =
      ((colorsList.find? (fun c => containsSub c.toList title.toList)).getD "")) ∧
    (∀ title : String, (∀ c ∈ colorsList, containsSub c.toList title.toList = false) →
      (extract_basic_details title).color = "") ∧
    (∀ title : String, searchWith matchScreenAt title.toList = none →
      (extract_basic_details title).screen_size = "") ∧
    (∀ title : String, searchWith matchChipAt title.toList = none →
      (extract_basic_details title).chip = "") ∧
    (∀ title : String, searchWith matchCpuAt title.toList = none →
      (extract_basic_details title).cpu_cores = "") ∧
    (∀ title : String, searchWith matchGpuAt title.toList = none →
      (extract_basic_details title).gpu_cores = "") := by
  refine ⟨by decide,
    fun title h => by
      show extract_model title.toList = "MacBook Air"
      rw [extract_model, if_pos h],
    fun title h => ?_, fun title => ?_, fun title h => ?_,
    fun title h => by
      show extract_screen_size title.toList = ""
      rw [extract_screen_size, h],
    fun title h => by
      show extract_chip title.toList = ""
      rw [extract_chip, h],
    fun title h => by
      show extract_cpu_cores title.toList = ""
      rw [extract_cpu_cores, h],
    fun title h => by
      show extract_gpu_cores title.toList = ""
      rw [extract_gpu_cores, h]⟩
  · have h1 := h ("MacBook Air") (by simp [modelKeywordList])
    have h2 := h ("MacBook Pro") (by simp [modelKeywordList])
    have h3 := h ("Mac mini") (by simp [modelKeywordList])
    have h4 := h ("Mac Studio") (by simp [modelKeywordList])
    have h5 := h ("Mac Pro") (by simp [modelKeywordList])
    have h6 := h ("iMac") (by simp [modelKeywordList])
    have h7 := h ("显示屏") (by simp [modelKeywordList])
    have h8 := h ("Display") (by simp [modelKeywordList])
    show extract_model title.toList = ""
    simp only [extract_model, h1, h2, h3, h4, h5, h6, h7, h8]
    simp
  · show findColor colorsList title.toList =
      ((colorsList.find? (fun c => containsSub c.toList title.toList)).getD "")
    exact findColor_eq_find? title.toList colorsList
  · have hn : List.find? (fun c => containsSub c.toList title.toList) colorsList = none :=
      List.find?_eq_none.mpr (fun c hc => by rw [h c hc]; simp)
    show findColor colorsList title.toList = ""
    rw [findColor_eq_find? title.toList colorsList, hn]
    rfl

/-- Witness for C9 at the sample title. -/
theorem title_fields_spec_witness :
    (extract_basic_details titleSample9).model = "MacBook Air" :=
  title_fields_spec.2.1 titleSample9 (by decide)

/-! ### Fill precedence (C5) -/

lemma fillField_keeps {cur : Option String} {v : String} (w : String)
    (h : cur = some v) (hne : v ≠ "") : fillField cur w = some v := by
  rw [h, fillField, if_neg hne]

/-- C5: for each title-derived field, `create_dataframe`'s fill loop writes
the title-derived value only into an absent or empty field; a non-empty
detail-derived value is never overwritten. -/
theorem fill_precedence_spec (p : Product) :
    (∀ v : String, p.model = some v → v ≠ "" → (fill_basic p).model = some v) ∧
    (∀ v : String, p.screen_size = some v → v ≠ "" → (fill_basic p).screen_size = some v) ∧
    (∀ v : String, p.chip = some v → v ≠ "" → (fill_basic p).chip = some v) ∧
    (∀ v : String, p.cpu_cores = some v → v ≠ "" → (fill_basic p).cpu_cores = some v) ∧
    (∀ v : String, p.gpu_cores = some v → v ≠ "" → (fill_basic p).gpu_cores = some v) ∧
    (∀ v : String, p.color = some v → v ≠ "" → (fill_basic p).color = some v) :=
  ⟨fun _ h hne => fillField_keeps _ h hne,
   fun _ h hne => fillField_keeps _ h hne,
   fun _ h hne => fillField_keeps _ h hne,
   fun _ h hne => fillField_keeps _ h hne,
   fun _ h hne => fillField_keeps _ h hne,
   fun _ h hne => fillField_keeps _ h hne⟩

/-- Witness for C5: a non-empty detail-derived chip survives the fill. -/
theorem fill_precedence_spec_witness :
    (fill_basic { title := ("翻新 MacBook Pro"), url := ("u"),
                  chip := some ("M3 Max") }).chip = some ("M3 Max") :=
  (fill_precedence_spec _).2.2.1 ("M3 Max") rfl (by decide)

/-- C10: an empty input yields the bare `pd.DataFrame()` with no columns at
all, while every non-empty input carries the canonical 12-column header. -/
theorem empty_table_spec :
    (create_dataframe []).columns = [] ∧
    (create_dataframe []).rows = [] ∧
    (create_dataframe []).columns ≠ required_columns ∧
    (∀ ps : List Product, ps ≠ [] → (create_dataframe ps).columns = required_columns) ∧
    required_columns.length = 12 := by
  refine ⟨rfl, rfl, by decide, ?_, by decide⟩
  intro ps h
  cases ps with
  | nil => exact absurd rfl h
  | cons p l => rfl

/-- Witness for C10: a one-row input does get the canonical header. -/
theorem empty_table_spec_witness :
    (create_dataframe [{ title := ("t"), url := ("u") }]).columns = required_columns :=
  empty_table_spec.2.2.2.1 _ (by decide)

/-! ### Dedup-loop lemmas (C3) -/

lemma parse_loop_sublist :
    ∀ (links : List Link) (seen : List String),
      (parse_loop links seen).Sublist (raw_candidates links) := by
  intro links
  induction links with
  | nil => intro seen; exact List.Sublist.refl _
  | cons l rest ih =>
    intro seen
    cases hc : link_candidate l with
    | none =>
      simp only [parse_loop, hc, raw_candidates, List.filterMap_cons]
      exact ih seen
    | some q =>
      simp only [parse_loop, hc, raw_candidates, List.filterMap_cons]
      by_cases hm : q.url ∈ seen
      · rw [if_pos hm]
        exact List.Sublist.cons q (ih seen)
      · rw [if_neg hm]
        exact List.Sublist.cons₂ q (ih _)

lemma parse_loop_url_not_seen :
    ∀ (links : List Link) (seen : List String) (p : Product),
      p ∈ parse_loop links seen → p.url ∉ seen := by
  intro links
  induction links with
  | nil => intro seen p hp; simp [parse_loop] at hp
  | cons l rest ih =>
    intro seen p hp
    cases hc : link_candidate l with
    | none =>
      simp only [parse_loop, hc] at hp
      exact ih seen p hp
    | some q =>
      simp only [parse_loop, hc] at hp
      by_cases hm : q.url ∈ seen
      · rw [if_pos hm] at hp
        exact ih seen p hp
      · rw [if_neg hm] at hp
        rcases List.mem_cons.mp hp with rfl | h2
        · exact hm
        · intro hcontra
          exact ih _ p h2 (List.mem_cons_of_mem _ hcontra)

lemma parse_loop_nodup :
    ∀ (links : List Link) (seen : List String),
      ((parse_loop links seen).map Product.url).Nodup := by
  intro links
  induction links with
  | nil => intro seen; simp [parse_loop]
  | cons l rest ih =>
    intro seen
    cases hc : link_candidate l with
    | none =>
      simp only [parse_loop, hc]
      exact ih seen
    | some q =>
      simp only [parse_loop, hc]
      by_cases hm : q.url ∈ seen
      · rw [if_pos hm]
        exact ih seen
      · rw [if_neg hm]
        simp only [List.map_cons]
        rw [List.nodup_cons]
        refine ⟨?_, ih _⟩
        intro hmem
        rcases List.mem_map.mp hmem with ⟨p, hp, hurl⟩
        have := parse_loop_url_not_seen rest _ p hp
        rw [hurl] at this
        exact this (List.mem_cons_self _ _)

lemma parse_loop_mem_iff :
    ∀ (links : List Link) (seen : List String) (u : String), u ∉ seen →
      ((∃ c ∈ raw_candidates links, c.url = u) ↔
        (∃ p ∈ parse_loop links seen, p.url = u)) := by
  intro links
  induction links with
  | nil => intro seen u hu; simp [parse_loop, raw_candidates]
  | cons l rest ih =>
    intro seen u hu
    cases hc : link_candidate l with
    | none =>
      simp only [raw_candidates, List.filterMap_cons, hc, parse_loop]
      exact ih seen u hu
    | some q =>
      by_cases hm : q.url ∈ seen
      · have hne : q.url ≠ u := fun he => hu (he ▸ hm)
        simp only [raw_candidates, List.filterMap_cons, hc, parse_loop, if_pos hm]
        constructor
        · rintro ⟨c, hcmem, hcu⟩
          rcases List.mem_cons.mp hcmem with rfl | h2
          · exact absurd hcu hne
          · exact (ih seen u hu).mp ⟨c, h2, hcu⟩
        · rintro ⟨p, hpmem, hpu⟩
          rcases (ih seen u hu).mpr ⟨p, hpmem, hpu⟩ with ⟨c, h2, hcu⟩
          exact ⟨c, List.mem_cons_of_mem _ h2, hcu⟩
      · simp only [raw_candidates, List.filterMap_cons, hc, parse_loop, if_neg hm]
        constructor
        · rintro ⟨c, hcmem, hcu⟩
          rcases List.mem_cons.mp hcmem with rfl | h2
          · exact ⟨c, List.mem_cons_self _ _, hcu⟩
          · by_cases hqu : q.url = u
            · exact ⟨q, List.mem_cons_self _ _, hqu⟩
            · have hu2 : u ∉ q.url :: seen := by
                intro hx
                rcases List.mem_cons.mp hx with h | h
                · exact hqu h.symm
                · exact hu h
              rcases (ih _ u hu2).mp ⟨c, h2, hcu⟩ with ⟨p, hp, hpu⟩
              exact ⟨p, List.mem_cons_of_mem _ hp, hpu⟩
        · rintro ⟨p, hpmem, hpu⟩
          rcases List.mem_cons.mp hpmem with rfl | h2
          · exact ⟨p, List.mem_cons_self _ _, hpu⟩
          · have hp2 := parse_loop_url_not_seen rest _ p h2
            have hu2 : u ∉ q.url :: seen := hpu ▸ hp2
            rcases (ih _ u hu2).mpr ⟨p, h2, hpu⟩ with ⟨c, hcm, hcu⟩
            exact ⟨c, List.mem_cons_of_mem _ hcm, hcu⟩

lemma parse_loop_find :
    ∀ (links : List Link) (seen : List String) (p : Product),
      p ∈ parse_loop links seen →
      (raw_candidates links).find? (fun c => c.url == p.url) = some p := by
  intro links
  induction links with
  | nil => intro seen p hp; simp [parse_loop] at hp
  | cons l rest ih =>
    intro seen p hp
    cases hc : link_candidate l with
    | none =>
      simp only [parse_loop, hc] at hp
      simp only [raw_candidates, List.filterMap_cons, hc]
      exact ih seen p hp
    | some q =>
      simp only [parse_loop, hc] at hp
      simp only [raw_candidates, List.filterMap_cons, hc]
      by_cases hm : q.url ∈ seen
      · rw [if_pos hm] at hp
        have hnotin := parse_loop_url_not_seen rest seen p hp
        have hne : ¬ (q.url == p.url) = true := by
          simp only [beq_iff_eq]
          intro he
          exact hnotin (he ▸ hm)
        rw [@List.find?_cons_of_neg _ (fun c => c.url == p.url) q
          (List.filterMap link_candidate rest) hne]
        exact ih seen p hp
      · rw [if_neg hm] at hp
        rcases List.mem_cons.mp hp with rfl | h2
        · rw [List.find?_cons_of_pos _ (by simp)]
        · have hnotin := parse_loop_url_not_seen rest _ p h2
          have hne : ¬ (q.url == p.url) = true := by
            simp only [beq_iff_eq]
            intro he
            exact hnotin (he ▸ List.mem_cons_self q.url seen)
          rw [@List.find?_cons_of_neg _ (fun c => c.url == p.url) q
            (List.filterMap link_candidate rest) hne]
          exact ih _ p h2

/-- C3: the list discoverer emits exactly one record per unique normalised
URL: the emitted URLs are distinct, the output is a subsequence of the
filtered candidate stream (first-seen order), a URL appears in the output
iff some filtered candidate has it, and each emitted record is the first
candidate with its URL (so the first occurrence's title is kept), even when
the input holds duplicate links differing only in their query string. -/
theorem dedup_spec (links : List Link) :
    ((parse_product_list links).map Product.url).Nodup ∧
    (parse_product_list links).Sublist (raw_candidates links) ∧
    (∀ u : String, (∃ c ∈ raw_candidates links, c.url = u) ↔
      (∃ p ∈ parse_product_list links, p.url = u)) ∧
    (∀ p ∈ parse_product_list links,
      (raw_candidates links).find? (fun c => c.url == p.url) = some p) :=
  ⟨parse_loop_nodup links [],
   parse_loop_sublist links [],
   fun u => parse_loop_mem_iff links [] u (by simp),
   fun p hp => parse_loop_find links [] p hp⟩

/-- Listing sample for the C3 witness: two links to the same product that
differ only in their query string, plus a non-refurbished link. -/
def linksSample : List Link :=
  [{ href := ("/shop/product/ABC123/a?x=1"), text := ("翻新 MacBook Air") },
   { href := ("/shop/product/ABC123/a?y=2"), text := ("翻新 MacBook Air 备用") },
   { href := ("/shop/product/XYZ9/a"), text := ("全新 iMac") }]

/-- The single record the C3 witness expects: first seen title, query
string stripped. -/
def dedupExpected : Product :=
  { title := ("翻新 MacBook Air"),
    url := ("https://www.apple.com.cn/shop/product/ABC123/a") }

/-- Witness for C3 at the sample listing. -/
theorem dedup_spec_witness :
    (raw_candidates linksSample).find? (fun c => c.url == dedupExpected.url) =
      some dedupExpected :=
  (dedup_spec linksSample).2.2.2 dedupExpected (by decide)

/-! ### Detail-pipeline rejection lemmas (C2, C6) -/

lemma fpd_eq_details (page : String → Option String) (p : Product) (t : String)
    (h : p.url ≠ "") (ht : page p.url = some t) (hte : t ≠ "") :
    fetch_product_details page p = details_from_text p t.toList := by
  rw [fetch_product_details, if_neg h, ht]
  show (if t = "" then none else details_from_text p t.toList) =
    details_from_text p t.toList
  rw [if_neg hte]

lemma fpd_none_of_no_page (page : String → Option String) (p : Product)
    (h : p.url ≠ "") (hn : page p.url = none) :
    fetch_product_details page p = none := by
  rw [fetch_product_details, if_neg h, hn]

/-- C2: with a nonempty url, a candidate is dropped (`none`) exactly when
its fetch fails or its detail text yields no parseable price; on a parsed
price the record survives with memory/storage/year recorded as (possibly
empty) strings; a text with no `RMB` substring never yields a price; a
dropped single-candidate batch gives the bare empty table and accepted
count `1 - 1`; the pipeline only ever drops candidates (it never grows or
aborts). -/
theorem rejection_spec (page : String → Option String) (p : Product)
    (h : p.url ≠ "") :
    (page p.url = none → fetch_product_details page p = none) ∧
    (∀ t : String, page p.url = some t → t ≠ "" →
      (fetch_product_details page p = none ↔ extract_price t.toList = none)) ∧
    (∀ (t : String) (n : Nat), page p.url = some t → t ≠ "" →
      extract_price t.toList = some n →
      fetch_product_details page p =
        some { p with
                price := some n
                memory := some (extract_memory t.toList)
                storage := some (extract_storage t.toList)
                release_year := some (extract_release_year t.toList) }) ∧
    (∀ t : String, containsSub (("RMB").toList) t.toList = false →
      extract_price t.toList = none) ∧
    (fetch_product_details page p = none →
      create_dataframe (process_products_parallel page [p]) = ⟨[], [], []⟩ ∧
      (process_products_parallel page [p]).length = 1 - 1) ∧
    (∀ ps : List Product,
      (process_products_parallel page ps).length ≤ ps.length) := by
  refine ⟨fun hn => fpd_none_of_no_page page p h hn, ?_, ?_, ?_, ?_, ?_⟩
  · intro t ht hte
    rw [fpd_eq_details page p t h ht hte]
    cases hep : extract_price t.toList with
    | none =>
      refine iff_of_true ?_ rfl
      rw [details_from_text, hep]
    | some n =>
      refine iff_of_false ?_ (by simp [hep])
      rw [details_from_text, hep]
      exact fun hx => Option.noConfusion hx
  · intro t n ht hte hep
    rw [fpd_eq_details page p t h ht hte, details_from_text, hep]
  · intro t hc
    exact no_rmb_extract_price_none hc
  · intro hnone
    have hempty : process_products_parallel page [p] = [] := by
      simp [process_products_parallel, hnone]
    rw [hempty]
    exact ⟨rfl, rfl⟩
  · intro ps
    simpa [process_products_parallel] using
      List.length_filterMap_le (fetch_product_details page) ps

/-- Witness for C2: a one-candidate batch whose detail text has no price is
dropped, yielding the bare empty table and accepted count 0 = 1 - 1. -/
theorem rejection_spec_witness :
    create_dataframe (process_products_parallel (fun _ => some ("no price here"))
        [{ title := ("t"), url := ("https://x") }]) = ⟨[], [], []⟩ ∧
    (process_products_parallel (fun _ => some ("no price here"))
        [{ title := ("t"), url := ("https://x") }]).length = 1 - 1 :=
  (rejection_spec (fun _ => some ("no price here"))
    { title := ("t"), url := ("https://x") } (by decide)).2.2.2.2.1 (by decide)

/-- C6 (amended): every record that survives `fetch_product_details` has a
price that is present (a parsed nonnegative integer), and a detail text
with no parseable price is rejected outright — the price is never
zero-filled.  The original claim's positivity fails: see the
counterexample. -/
theorem price_invariant_amended (page : String → Option String) (p : Product) :
    (∀ q : Product, fetch_product_details page p = some q →
      ∃ n : Nat, q.price = some n) ∧
    (∀ t : String, page p.url = some t → t ≠ "" →
      extract_price t.toList = none → fetch_product_details page p = none) := by
  constructor
  · intro q hq
    by_cases h : p.url = ""
    · rw [fetch_product_details, if_pos h] at hq
      exact Option.noConfusion hq
    · cases hp : page p.url with
      | none =>
        rw [fpd_none_of_no_page page p h hp] at hq
        exact Option.noConfusion hq
      | some t =>
        by_cases hte : t = ""
        · subst hte
          rw [fetch_product_details, if_neg h, hp] at hq
          exact Option.noConfusion hq
        · rw [fpd_eq_details page p t h hp hte, details_from_text] at hq
          cases hep : extract_price t.toList with
          | none =>
            rw [hep] at hq
            exact Option.noConfusion hq
          | some n =>
            rw [hep] at hq
            have hrec := Option.some.inj hq
            rw [← hrec]
            exact ⟨n, rfl⟩
  · intro t ht hte hep
    by_cases h : p.url = ""
    · rw [fetch_product_details, if_pos h]
    · rw [fpd_eq_details page p t h ht hte, details_from_text, hep]

/-- Witness for C6's amended claim at a concrete survivor. -/
theorem price_invariant_amended_witness :
    ∃ n : Nat,
      Product.price { title := ("t"), url := ("https://x"), price := some 9999, memory := some (""), storage := some (""), release_year := some ("") } = some n :=
  (price_invariant_amended (fun _ => some ("或 RMB 9,999"))
    { title := ("t"), url := ("https://x") }).1 _ (by decide)

/-- Counterexample for C6 as stated: a detail text `RMB 0` parses to price
0, and the candidate survives the pipeline with that non-positive price, so
the surviving price is not always positive (it is only always present and
nonnegative). -/
theorem price_positive_counterexample :
    (fetch_product_details (fun _ => some ("RMB 0"))
        { title := ("t"), url := ("https://x") }).map Product.price =
      some (some 0) := by decide

/-! ### Retry-loop lemmas (C7) -/

lemma fetch_page_go_first_success (f : Nat → Option String) (retry : Nat)
    (b : String) :
    ∀ (k r a s : Nat), a + r = retry → k < r →
      (∀ j, j < k → f (a + j) = none) → f (a + k) = some b →
      fetch_page_go f retry r a s = ⟨some b, s + k, false⟩ := by
  intro k
  induction k with
  | zero =>
    intro r a s har hkr h0 hk
    cases r with
    | zero => omega
    | succ r2 =>
      rw [Nat.add_zero] at hk
      simp [fetch_page_go, hk]
  | succ k ih =>
    intro r a s har hkr h0 hk
    cases r with
    | zero => omega
    | succ r2 =>
      have hf0 : f a = none := by simpa using h0 0 (by omega)
      have hne : a ≠ retry - 1 := by omega
      simp only [fetch_page_go, hf0]
      rw [if_neg hne]
      have h02 : ∀ j, j < k → f (a + 1 + j) = none := by
        intro j hj
        have heq : a + 1 + j = a + (j + 1) := by omega
        rw [heq]
        exact h0 (j + 1) (by omega)
      have hk2 : f (a + 1 + k) = some b := by
        have heq : a + 1 + k = a + (k + 1) := by omega
        rw [heq]
        exact hk
      have := ih r2 (a + 1) (s + 1) (by omega) (by omega) h02 hk2
      rw [this]
      have heq2 : s + 1 + k = s + (k + 1) := by omega
      rw [heq2]

lemma fetch_page_go_all_fail (f : Nat → Option String) (retry : Nat) :
    ∀ (r a s : Nat), a + r = retry → 1 ≤ r →
      (∀ j, j < r → f (a + j) = none) →
      fetch_page_go f retry r a s = ⟨none, s + (r - 1), true⟩ := by
  intro r
  induction r with
  | zero =>
    intro a s har h1 hall
    exact absurd h1 (by omega)
  | succ r2 ih =>
    intro a s har h1 hall
    have hf0 : f a = none := by simpa using hall 0 (by omega)
    by_cases hra : a = retry - 1
    · have hr20 : r2 = 0 := by omega
      subst hr20
      simp only [fetch_page_go, hf0]
      rw [if_pos hra]
      simp
    · have hr2pos : 1 ≤ r2 := by omega
      simp only [fetch_page_go, hf0]
      rw [if_neg hra]
      have h2 : ∀ j, j < r2 → f (a + 1 + j) = none := by
        intro j hj
        have heq : a + 1 + j = a + (j + 1) := by omega
        rw [heq]
        exact hall (j + 1) (by omega)
      have := ih (a + 1) (s + 1) (by omega) hr2pos h2
      rw [this]
      have heq2 : s + 1 + (r2 - 1) = s + (r2 + 1 - 1) := by omega
      rw [heq2]

/-- C7: for any url, any per-attempt transport outcomes and any retry
budget of at least 1, `fetch_page` returns the body of the first successful
attempt after one unit `time.sleep(1)` per preceding failure, and when all
`retry` attempts fail it returns `none` (having logged the terminal error
and slept between attempts) instead of raising. -/
theorem fetch_retry_spec (url : String) (outcome : String → Nat → Option String)
    (retry : Nat) (hr : 1 ≤ retry) :
    (∀ (k : Nat) (body : String), k < retry →
      (∀ j, j < k → outcome url j = none) → outcome url k = some body →
      fetch_page url outcome retry = ⟨some body, k, false⟩) ∧
    ((∀ j, j < retry → outcome url j = none) →
      fetch_page url outcome retry = ⟨none, retry - 1, true⟩) := by
  constructor
  · intro k body hk h0 hkk
    have := fetch_page_go_first_success (outcome url) retry body k retry 0 0
      (by omega) hk (fun j hj => by simpa using h0 j hj) (by simpa using hkk)
    simpa [fetch_page] using this
  · intro hall
    have := fetch_page_go_all_fail (outcome url) retry retry 0 0
      (by omega) hr (fun j hj => by simpa using hall j hj)
    simpa [fetch_page] using this

/-- Witness for C7: with two attempts whose first fails, the body of the
second attempt is returned after exactly one sleep. -/
theorem fetch_retry_spec_witness :
    fetch_page ("u") (fun _ j => if j == 0 then none else some ("ok")) 2 =
      ⟨some ("ok"), 1, false⟩ :=
  (fetch_retry_spec ("u") (fun _ j => if j == 0 then none else some ("ok")) 2
    (by decide)).1 1 ("ok") (by decide)
    (fun j hj => by
      have hj0 : j = 0 := by omega
      subst hj0
      rfl)
    rfl
